import Mathlib

/-!
Shallow embedding of the search/history/favorites controller of the
dictionary web application (`src/src/App.tsx`).  The file embeds the
controller state (`AppState`), the `searchWord`, `toggleFavorite`,
`removeFromFavorites`, `isFavorite` and `getAllSynonyms` operations, the
history-insertion rule (the `setHistory` updater), the persistence
bootstrap, and the two fetch-URL constructions found in the two App
variants contained in the source file.  Theorems about the frozen claims
follow the definitions.
-/

namespace DictApp

/-- `Phonetic` record from the source (`text?`, `audio?`). -/
structure Phonetic where
  text : Option String := none
  audio : Option String := none
deriving DecidableEq

/-- `Definition` record from the source.  The optional `example` field is
named `exampleStr` here because `example` is a Lean keyword. -/
structure Definition where
  definition : String
  exampleStr : Option String := none
  synonyms : Option (List String) := none
  antonyms : Option (List String) := none
deriving DecidableEq

/-- `Meaning` record from the source. -/
structure Meaning where
  partOfSpeech : String
  definitions : List Definition
  synonyms : Option (List String) := none
  antonyms : Option (List String) := none
deriving DecidableEq

/-- `DictionaryEntry` record from the source. -/
structure DictionaryEntry where
  word : String
  phonetic : Option String := none
  phonetics : List Phonetic := []
  meanings : List Meaning
  sourceUrls : List String := []
deriving DecidableEq

/-- `HistoryItem` record from the source; `timestamp` (`Date.now()`) is a
natural number of milliseconds. -/
structure HistoryItem where
  word : String
  timestamp : Nat
deriving DecidableEq

/-- `FavoriteItem` record from the source. -/
structure FavoriteItem where
  word : String
  definition : String
  timestamp : Nat
deriving DecidableEq

/-- Model of JavaScript `String.prototype.toLowerCase`, applied
character-wise with the core ASCII `Char.toLower` (the app only feeds it
search terms; the ASCII mapping is the relevant behaviour). -/
def jsToLower (s : String) : String :=
  ⟨s.data.map Char.toLower⟩

/-- Model of JavaScript `String.prototype.trim`: drop whitespace from both
ends of the character sequence. -/
def jsTrim (s : String) : String :=
  ⟨((s.data.dropWhile Char.isWhitespace).reverse.dropWhile Char.isWhitespace).reverse⟩

/-- The controller state: the React `useState` cells of the `App`
component that the specified core manipulates (`value`, `data`, `err`,
`loading`, `history`, `favorites`, `selectedMeaningIndex`). -/
structure AppState where
  value : String := ""
  data : Option (List DictionaryEntry) := none
  err : Option String := none
  loading : Bool := false
  history : List HistoryItem := []
  favorites : List FavoriteItem := []
  selectedMeaningIndex : Nat := 0
deriving DecidableEq

/-- Outcome of one lookup: `Except.ok result` models an `ok` HTTP response
whose body parsed to `result`; `Except.error ()` models any thrown error
(non-`ok` status, transport failure, JSON parse failure) — the source
collapses all of them into the single `catch` branch. -/
abbrev LookupOutcome := Except Unit (List DictionaryEntry)

/-- The `setHistory` updater inside `searchWord`:
`prev.filter(item => item.word !== word.toLowerCase())`, then
`[newHistoryItem, ...filtered].slice(0, 50)`. -/
def recordHistory (prev : List HistoryItem) (word : String) (now : Nat) :
    List HistoryItem :=
  let filtered := prev.filter (fun item => item.word ≠ jsToLower word)
  (({ word := jsToLower word, timestamp := now } : HistoryItem) :: filtered).take 50

/-- The error message built in the `catch` branch:
`` `"${word}" not found in dictionary` ``. -/
def notFoundMsg (word : String) : String :=
  "\"" ++ word ++ "\" not found in dictionary"

/-- `searchWord` as a state transition.  `word.trim()` falsy means the
trimmed string is empty and the function returns without touching any
state.  Otherwise the outcome of the single fetch decides between the
success branch (`setData(result)`, `setSelectedMeaningIndex(0)`, the
`setHistory` updater, `setErr(null)` from the start of the call) and the
`catch` branch (`setData(null)`, `setErr(...)`); the `finally` branch
sets `loading` to `false` in both cases. -/
def searchWord (s : AppState) (word : String) (outcome : LookupOutcome)
    (now : Nat) : AppState :=
  if jsTrim word = "" then s
  else
    match outcome with
    | Except.ok result =>
        { s with
          loading := false
          err := none
          data := some result
          selectedMeaningIndex := 0
          history := recordHistory s.history word now }
    | Except.error _ =>
        { s with
          loading := false
          data := none
          err := some (notFoundMsg word) }

/-- `isFavorite`: `false` when `!data || !data[0]`, otherwise
`favorites.some(f => f.word === data[0].word)`. -/
def isFavorite (s : AppState) : Bool :=
  match s.data with
  | none => false
  | some [] => false
  | some (e :: _) => s.favorites.any (fun f => f.word = e.word)

/-- `removeFromFavorites`: `prev.filter(f => f.word !== word)`. -/
def removeFromFavorites (favs : List FavoriteItem) (word : String) :
    List FavoriteItem :=
  favs.filter (fun f => f.word ≠ word)

/-- The unguarded snapshot read in `toggleFavorite`:
`data[0].meanings[0].definitions[0].definition`.  `none` models the
JavaScript `TypeError` thrown when `meanings[0]` or `definitions[0]` is
`undefined`. -/
def firstDefinition (e : DictionaryEntry) : Option String :=
  e.meanings.head?.bind fun m => m.definitions.head?.map fun d => d.definition

/-- `toggleFavorite` as a partial state transition: `none` is the crash of
the unguarded `data[0].meanings[0].definitions[0]` access; otherwise the
current word is removed from favorites when already present, or a fresh
snapshot record is prepended. -/
def toggleFavorite (s : AppState) (now : Nat) : Option AppState :=
  match s.data with
  | none => some s
  | some [] => some s
  | some (e :: _) =>
      if isFavorite s then
        some { s with favorites := removeFromFavorites s.favorites e.word }
      else
        match firstDefinition e with
        | none => none
        | some d =>
            some { s with
              favorites :=
                ({ word := e.word, definition := d, timestamp := now } :
                  FavoriteItem) :: s.favorites }

/-- The synonym traversal order of `getAllSynonyms`: for each meaning,
first the meaning's own `synonyms` array, then the `synonyms` array of
each of its definitions (`undefined` arrays contribute nothing). -/
def synTraversal (e : DictionaryEntry) : List String :=
  e.meanings.flatMap fun m =>
    m.synonyms.getD [] ++ (m.definitions.flatMap fun d => d.synonyms.getD [])

/-- One `Set.add` step: a JavaScript `Set` keeps insertion order and
ignores an element that is already present. -/
def addToSet (acc : List String) (s : String) : List String :=
  if s ∈ acc then acc else acc ++ [s]

/-- `getAllSynonyms`: `[]` when `!data || !data[0]`; otherwise
`Array.from` of the `Set` filled along `synTraversal`, i.e. the
insertion-order fold of `addToSet`. -/
def getAllSynonyms (s : AppState) : List String :=
  match s.data with
  | none => []
  | some [] => []
  | some (e :: _) => (synTraversal e).foldl addToSet []

/-- Recursive form of insertion-order `Set` accumulation: keep the first
occurrence of each element, skipping elements already seen. -/
def firstSeenAux (seen : List String) : List String → List String
  | [] => []
  | s :: rest =>
      if s ∈ seen then firstSeenAux seen rest
      else s :: firstSeenAux (seen ++ [s]) rest

/-- The `Clear` button handler: `setHistory([])`. -/
def clearHistory (s : AppState) : AppState :=
  { s with history := [] }

/-- The Favorites `contains` check, the `favorites.some(f => f.word ===
word)` pattern of `isFavorite`: exact, non-normalised word identity. -/
def containsFav (favs : List FavoriteItem) (word : String) : Bool :=
  favs.any (fun f => f.word = word)

/-- The Favorites `add` operation, the `setFavorites(prev => [newFavorite,
...prev])` updater of `toggleFavorite`: prepend a fresh record. -/
def addFavorite (favs : List FavoriteItem) (word definition : String)
    (now : Nat) : List FavoriteItem :=
  ({ word := word, definition := definition, timestamp := now } :
    FavoriteItem) :: favs

/-- A whole session of history insertions: fold the `setHistory` updater
over a list of `(searched term, Date.now() at that search)` pairs,
starting from the empty collection the app boots with. -/
def runHistory (ops : List (String × Nat)) : List HistoryItem :=
  ops.foldl (fun h op => recordHistory h op.1 op.2) []

/-- Startup read of one persisted collection (the bootstrap `useEffect`):
`const saved = localStorage.getItem(key); if (saved) setX(JSON.parse(saved))`.
`saved = none` models an absent key and the falsy empty string is also
skipped, leaving the collection at its initial `[]`.  `parse` stands for
`JSON.parse`, which throws (`Except.error`) on malformed input; the
source wraps the call in no `try`/`catch`, so the thrown error
propagates out of the bootstrap. -/
def bootstrapCollection {α : Type} (saved : Option String)
    (parse : String → Except String (List α)) : Except String (List α) :=
  match saved with
  | none => Except.ok []
  | some s => if s = "" then Except.ok [] else parse s

/-- Model of the external `JSON.parse` collaborator specialised to the
history schema, fixed only on the malformed input `"not json"`, on which
`JSON.parse` throws a `SyntaxError`; inputs outside that point are not
relied upon by any theorem. -/
def jsonParseHistory (s : String) : Except String (List HistoryItem) :=
  if s = "not json" then Except.error "SyntaxError: Unexpected token"
  else Except.ok []

/-- The characters `encodeURIComponent` leaves unescaped:
`A-Z a-z 0-9 - _ . ! ~ * ' ( )`. -/
def isUnreservedURIChar (c : Char) : Bool :=
  c.isAlphanum || c = '-' || c = '_' || c = '.' || c = '!' || c = '~' ||
    c = '*' || c = Char.ofNat 39 || c = '(' || c = ')'

/-- UTF-8 bytes of a character, as natural numbers below 256. -/
def utf8Bytes (c : Char) : List Nat :=
  let n := c.toNat
  if n < 128 then [n]
  else if n < 2048 then [192 + n / 64, 128 + n % 64]
  else if n < 65536 then [224 + n / 4096, 128 + (n / 64) % 64, 128 + n % 64]
  else [240 + n / 262144, 128 + (n / 4096) % 64, 128 + (n / 64) % 64,
    128 + n % 64]

/-- Upper-case hexadecimal digit for a value below 16. -/
def hexDigit (n : Nat) : Char :=
  if n < 10 then Char.ofNat (48 + n) else Char.ofNat (55 + n)

/-- `%XX` escape of one byte. -/
def percentByte (b : Nat) : List Char :=
  ['%', hexDigit (b / 16), hexDigit (b % 16)]

/-- Model of JavaScript `encodeURIComponent`: unreserved characters pass
through, every other character is replaced by the `%XX` escapes of its
UTF-8 bytes. -/
def encodeURIComponent (s : String) : String :=
  ⟨s.data.flatMap fun c =>
    if isUnreservedURIChar c then [c] else (utf8Bytes c).flatMap percentByte⟩

/-- The fixed prefix of the lookup URL. -/
def apiBase : String := "https://api.dictionaryapi.dev/api/v2/entries/en/"

/-- Fetch URL of the first App variant:
`` `...en/${encodeURIComponent(word.toLowerCase())}` ``. -/
def fetchUrl1 (word : String) : String :=
  apiBase ++ encodeURIComponent (jsToLower word)

/-- Fetch URL of the second App variant:
`` `${url}${word.toLowerCase()}` `` — no percent-encoding. -/
def fetchUrl2 (word : String) : String :=
  apiBase ++ jsToLower word

/-- The single outbound request a `searchWord` call issues in the first
variant: `none` when the empty-term guard returns early. -/
def searchRequest1 (word : String) : Option String :=
  if jsTrim word = "" then none else some (fetchUrl1 word)

/-- The single outbound request a `searchWord` call issues in the second
variant: `none` when the empty-term guard returns early. -/
def searchRequest2 (word : String) : Option String :=
  if jsTrim word = "" then none else some (fetchUrl2 word)

/-- The SearchState mutual-exclusion invariant: `entries` (`data`) and
`error` (`err`) are never both present. -/
def exclusive (s : AppState) : Prop :=
  s.data = none ∨ s.err = none

/-- A small concrete entry used by concrete witnesses: the word `run`
with one meaning holding one definition. -/
def sampleEntry : DictionaryEntry :=
  { word := "run"
    meanings := [{ partOfSpeech := "verb"
                   definitions := [{ definition := "to move swiftly" }] }] }

/-- Concrete loaded entry for the word `b`, used by concrete statements
about `toggleFavorite`. -/
def cexEntryB : DictionaryEntry :=
  { word := "b"
    meanings := [{ partOfSpeech := "noun"
                   definitions := [{ definition := "bdef" }] }] }

/-- Concrete state whose favorites hold `a` and then `b` (so `b` is *not*
at the front) while the entry for `b` is loaded. -/
def cexStateFav : AppState :=
  { data := some [cexEntryB]
    favorites := [{ word := "a", definition := "da", timestamp := 0 },
                  { word := "b", definition := "db", timestamp := 1 }] }

/-- Concrete state whose loaded entry has no meanings at all, used for the
unguarded-indexing statements about `toggleFavorite`. -/
def cexStateNoMeanings : AppState :=
  { data := some [{ word := "void", meanings := [] }] }

/-- Concrete entry with overlapping synonym lists across meanings and
definitions, used by concrete statements about `getAllSynonyms`. -/
def cexSynEntry : DictionaryEntry :=
  { word := "big"
    meanings :=
      [{ partOfSpeech := "adjective"
         definitions :=
           [{ definition := "large"
              synonyms := some ["huge", "vast"] }]
         synonyms := some ["large", "huge"] },
       { partOfSpeech := "noun"
         definitions := [{ definition := "a big one" }]
         synonyms := some ["vast", "grand"] }] }

/-- Concrete state with `cexSynEntry` loaded. -/
def cexSynState : AppState := { data := some [cexSynEntry] }

/-- Invariant of the History collection maintained by the insertion rule:
bounded by 50 records, at most one record per stored word, and every
stored word already in lower-cased form. -/
def historyInv (h : List HistoryItem) : Prop :=
  h.length ≤ 50 ∧ (h.map (fun i => i.word)).Nodup ∧
    ∀ i ∈ h, jsToLower i.word = i.word

end DictApp

namespace DictApp

theorem char_toNat_ofNat_valid {n : Nat} (h : n.isValidChar) :
    (Char.ofNat n).toNat = n := by
  simp [Char.ofNat, h, Char.ofNatAux, Char.toNat, UInt32.toNat,
    BitVec.toNat_ofNatLt]

theorem char_toLower_idem (c : Char) : c.toLower.toLower = c.toLower := by
  unfold Char.toLower
  by_cases h : c.toNat ≥ 65 ∧ c.toNat ≤ 90
  · rw [if_pos h]
    have hv : (c.toNat + 32).isValidChar := by
      left
      omega
    rw [if_neg]
    rw [char_toNat_ofNat_valid hv]
    omega
  · rw [if_neg h, if_neg h]

theorem jsToLower_idem (s : String) : jsToLower (jsToLower s) = jsToLower s := by
  have hfun : Char.toLower ∘ Char.toLower = Char.toLower :=
    funext char_toLower_idem
  simp [jsToLower, List.map_map, hfun]

theorem recordHistory_eq (prev : List HistoryItem) (w : String) (now : Nat) :
    recordHistory prev w now =
      ({ word := jsToLower w, timestamp := now } : HistoryItem) ::
        (prev.filter (fun i => i.word ≠ jsToLower w)).take 49 := by
  rw [recordHistory, show (50 : Nat) = 49 + 1 from rfl, List.take_succ_cons]

theorem countP_recordHistory (prev : List HistoryItem) (w : String)
    (now : Nat) :
    (recordHistory prev w now).countP (fun i => i.word = jsToLower w) = 1 := by
  rw [recordHistory_eq, List.countP_cons]
  have h1 : ((prev.filter (fun i => i.word ≠ jsToLower w)).take 49).countP
      (fun i => decide (i.word = jsToLower w)) = 0 := by
    rw [List.countP_eq_zero]
    intro a ha
    have ha2 := (List.take_sublist 49 _).subset ha
    rw [List.mem_filter] at ha2
    simpa using ha2.2
  rw [h1]
  simp

/-- **C1** (amended): for every search term whose trimmed form is
non-empty and for which the lookup resolves successfully with entry list
`result`, after `searchWord`: `loading` is `false`, `err` is absent,
`data` is present and equals `result` (in particular non-empty whenever
`result` is), and the history holds exactly one record whose word is the
lower-cased term, sitting at the front. -/
theorem searchWord_success (s : AppState) (term : String)
    (result : List DictionaryEntry) (now : Nat) (h : jsTrim term ≠ "") :
    (searchWord s term (Except.ok result) now).loading = false ∧
    (searchWord s term (Except.ok result) now).err = none ∧
    (searchWord s term (Except.ok result) now).data = some result ∧
    (searchWord s term (Except.ok result) now).history.head? =
      some { word := jsToLower term, timestamp := now } ∧
    (searchWord s term (Except.ok result) now).history.countP
      (fun i => i.word = jsToLower term) = 1 := by
  have hs : searchWord s term (Except.ok result) now =
      { s with
        loading := false
        err := none
        data := some result
        selectedMeaningIndex := 0
        history := recordHistory s.history term now } := by
    simp [searchWord, h]
  rw [hs]
  refine ⟨rfl, rfl, rfl, ?_, ?_⟩
  · rw [show ({ s with
        loading := false
        err := none
        data := some result
        selectedMeaningIndex := 0
        history := recordHistory s.history term now } : AppState).history =
      recordHistory s.history term now from rfl, recordHistory_eq]
    rfl
  · exact countP_recordHistory s.history term now

/-- **C1** witness at a concrete successful search. -/
theorem searchWord_success_witness :
    (searchWord {} "Run" (Except.ok [sampleEntry]) 7).loading = false ∧
    (searchWord {} "Run" (Except.ok [sampleEntry]) 7).err = none ∧
    (searchWord {} "Run" (Except.ok [sampleEntry]) 7).data =
      some [sampleEntry] ∧
    (searchWord {} "Run" (Except.ok [sampleEntry]) 7).history.head? =
      some { word := jsToLower "Run", timestamp := 7 } ∧
    (searchWord {} "Run" (Except.ok [sampleEntry]) 7).history.countP
      (fun i => i.word = jsToLower "Run") = 1 :=
  searchWord_success {} "Run" [sampleEntry] 7 (by decide)

/-- **C1** counterexample to the claim as stated: the lookup can resolve
successfully with an empty entry list, after which `entries` is present
but empty, so "entries is non-empty" fails. -/
theorem searchWord_success_empty_entries :
    jsTrim "run" ≠ "" ∧
    (searchWord {} "run" (Except.ok []) 0).err = none ∧
    (searchWord {} "run" (Except.ok []) 0).loading = false ∧
    (searchWord {} "run" (Except.ok []) 0).data =
      some ([] : List DictionaryEntry) := by
  decide

/-- **C4**: for every search term whose trimmed form is non-empty and for
which the lookup fails, after `searchWord`: `loading` is `false`, `data`
is absent, `err` embeds the literal original (non-lower-cased) term, and
the history is unchanged. -/
theorem searchWord_failure (s : AppState) (term : String) (now : Nat)
    (h : jsTrim term ≠ "") :
    (searchWord s term (Except.error ()) now).loading = false ∧
    (searchWord s term (Except.error ()) now).data = none ∧
    (searchWord s term (Except.error ()) now).err =
      some (notFoundMsg term) ∧
    (∃ pre post, notFoundMsg term = pre ++ term ++ post) ∧
    (searchWord s term (Except.error ()) now).history = s.history := by
  refine ⟨?_, ?_, ?_, ⟨"\"", "\" not found in dictionary", ?_⟩, ?_⟩ <;>
    simp [searchWord, h, notFoundMsg]

/-- **C4** witness at a concrete failed search. -/
theorem searchWord_failure_witness :
    (searchWord {} "Xyzzy" (Except.error ()) 3).loading = false ∧
    (searchWord {} "Xyzzy" (Except.error ()) 3).data = none ∧
    (searchWord {} "Xyzzy" (Except.error ()) 3).err =
      some (notFoundMsg "Xyzzy") ∧
    (∃ pre post, notFoundMsg "Xyzzy" = pre ++ "Xyzzy" ++ post) ∧
    (searchWord {} "Xyzzy" (Except.error ()) 3).history =
      ({} : AppState).history :=
  searchWord_failure {} "Xyzzy" 3 (by decide)

/-- **C9**: a term whose trimmed form is empty makes `searchWord` a
silent no-op — the whole state (including history and favorites) is
returned unchanged and no request is issued in either variant. -/
theorem searchWord_empty_noop (s : AppState) (term : String)
    (outcome : LookupOutcome) (now : Nat) (h : jsTrim term = "") :
    searchWord s term outcome now = s ∧
    searchRequest1 term = none ∧
    searchRequest2 term = none := by
  refine ⟨?_, ?_, ?_⟩ <;> simp [searchWord, searchRequest1, searchRequest2, h]

/-- **C9** witness at a whitespace-only term. -/
theorem searchWord_empty_noop_witness :
    searchWord {} "  " (Except.error ()) 5 = {} ∧
    searchRequest1 "  " = none ∧
    searchRequest2 "  " = none :=
  searchWord_empty_noop {} "  " (Except.error ()) 5 (by decide)

theorem toggleFavorite_keeps_data_err (s : AppState) (now : Nat)
    (s' : AppState) (h : toggleFavorite s now = some s') :
    s'.data = s.data ∧ s'.err = s.err := by
  unfold toggleFavorite at h
  split at h
  · cases h
    exact ⟨rfl, rfl⟩
  · cases h
    exact ⟨rfl, rfl⟩
  · split at h
    · cases h
      exact ⟨rfl, rfl⟩
    · split at h
      · cases h
      · cases h
        exact ⟨rfl, rfl⟩

/-- **C6**: `entries` and `err` stay mutually exclusive under every
controller operation (`searchWord` with any outcome, `toggleFavorite`,
removal from favorites, clearing history), and `searchWord` on a
non-empty trimmed term leaves `loading = false` whatever the outcome of
the lookup. -/
theorem searchState_invariant :
    (∀ s term outcome now, exclusive s →
      exclusive (searchWord s term outcome now)) ∧
    (∀ s term outcome now, jsTrim term ≠ "" →
      (searchWord s term outcome now).loading = false) ∧
    (∀ s now s', exclusive s → toggleFavorite s now = some s' →
      exclusive s') ∧
    (∀ s w, exclusive s →
      exclusive { s with favorites := removeFromFavorites s.favorites w }) ∧
    (∀ s, exclusive s → exclusive (clearHistory s)) := by
  refine ⟨?_, ?_, ?_, ?_, ?_⟩
  · intro s term outcome now hex
    by_cases h : jsTrim term = ""
    · simpa [searchWord, h] using hex
    · cases outcome with
      | ok result => right; simp [searchWord, h]
      | error e => left; simp [searchWord, h]
  · intro s term outcome now h
    cases outcome with
    | ok result => simp [searchWord, h]
    | error e => simp [searchWord, h]
  · intro s now s' hex htog
    have hfields := toggleFavorite_keeps_data_err s now s' htog
    unfold exclusive at hex ⊢
    rw [hfields.1, hfields.2]
    exact hex
  · intro s w hex
    unfold exclusive at hex ⊢
    exact hex
  · intro s hex
    unfold exclusive at hex ⊢
    exact hex

/-- **C6** witness: the invariant applied at concrete states and
operations. -/
theorem searchState_invariant_witness :
    exclusive (searchWord {} "run" (Except.ok [sampleEntry]) 0) ∧
    (searchWord {} "run" (Except.error ()) 0).loading = false ∧
    exclusive (clearHistory {}) :=
  ⟨searchState_invariant.1 {} "run" (Except.ok [sampleEntry]) 0 (Or.inl rfl),
   searchState_invariant.2.1 {} "run" (Except.error ()) 0 (by decide),
   searchState_invariant.2.2.2.2 {} (Or.inl rfl)⟩

theorem isFavorite_eq_containsFav (s : AppState) (e : DictionaryEntry)
    (rest : List DictionaryEntry) (hdata : s.data = some (e :: rest)) :
    isFavorite s = containsFav s.favorites e.word := by
  obtain ⟨v, dt, er, ld, hi, fa, si⟩ := s
  change dt = _ at hdata
  subst hdata
  rfl

theorem toggleFavorite_add (s : AppState) (e : DictionaryEntry)
    (rest : List DictionaryEntry) (d : String) (t : Nat)
    (hdata : s.data = some (e :: rest)) (hfav : isFavorite s = false)
    (hd : firstDefinition e = some d) :
    toggleFavorite s t =
      some { s with favorites := addFavorite s.favorites e.word d t } := by
  obtain ⟨v, dt, er, ld, hi, fa, si⟩ := s
  change dt = _ at hdata
  subst hdata
  change (if isFavorite _ then _ else _) = _
  rw [hfav]
  simp only [Bool.false_eq_true, if_false, hd]
  rfl

theorem toggleFavorite_remove (s : AppState) (e : DictionaryEntry)
    (rest : List DictionaryEntry) (t : Nat)
    (hdata : s.data = some (e :: rest)) (hfav : isFavorite s = true) :
    toggleFavorite s t =
      some { s with favorites := removeFromFavorites s.favorites e.word } := by
  obtain ⟨v, dt, er, ld, hi, fa, si⟩ := s
  change dt = _ at hdata
  subst hdata
  change (if isFavorite _ then _ else _) = _
  rw [hfav]
  rfl

/-- **C5** (amended): `add` then `contains` is true; `remove` then
`contains` is false (exact, case-sensitive identity); double
`toggleFavorite` on a loaded entry whose word is not yet favorited
restores Favorites exactly; and with the word favorited by the unique
record sitting at the front and carrying the current entry's first
definition, double `toggleFavorite` restores Favorites except that the
re-added record carries the new timestamp.  (Without the at-the-front /
same-definition proviso the round trip does not restore the collection:
see the counterexample.) -/
theorem favorites_contract :
    (∀ (favs : List FavoriteItem) (w d : String) (t : Nat),
      containsFav (addFavorite favs w d t) w = true) ∧
    (∀ (favs : List FavoriteItem) (w : String),
      containsFav (removeFromFavorites favs w) w = false) ∧
    (∀ (s : AppState) (e : DictionaryEntry) (rest : List DictionaryEntry)
        (t1 t2 : Nat), s.data = some (e :: rest) → isFavorite s = false →
      (firstDefinition e).isSome →
      (toggleFavorite s t1).bind (fun s1 => toggleFavorite s1 t2) = some s) ∧
    (∀ (s : AppState) (e : DictionaryEntry) (rest : List DictionaryEntry)
        (d : String) (restF : List FavoriteItem) (t0 t1 t2 : Nat),
      s.data = some (e :: rest) →
      s.favorites =
        ({ word := e.word, definition := d, timestamp := t0 } :
          FavoriteItem) :: restF →
      (∀ f ∈ restF, f.word ≠ e.word) →
      firstDefinition e = some d →
      (toggleFavorite s t1).bind (fun s1 => toggleFavorite s1 t2) =
        some { s with
          favorites :=
            ({ word := e.word, definition := d, timestamp := t2 } :
              FavoriteItem) :: restF }) := by
  refine ⟨?_, ?_, ?_, ?_⟩
  · intro favs w d t
    simp [containsFav, addFavorite]
  · intro favs w
    rw [containsFav, List.any_eq_false]
    intro f hf
    rw [removeFromFavorites, List.mem_filter] at hf
    simpa using hf.2
  · intro s e rest t1 t2 hdata hfav hdef
    obtain ⟨d, hd⟩ := Option.isSome_iff_exists.mp hdef
    rw [toggleFavorite_add s e rest d t1 hdata hfav hd, Option.some_bind]
    have hfa : ∀ f ∈ s.favorites, f.word ≠ e.word := by
      rw [isFavorite_eq_containsFav s e rest hdata, containsFav,
        List.any_eq_false] at hfav
      intro f hf
      simpa using hfav f hf
    have hdata1 :
        ({ s with favorites := addFavorite s.favorites e.word d t1 }
          : AppState).data = some (e :: rest) := hdata
    have hfav1 : isFavorite
        { s with favorites := addFavorite s.favorites e.word d t1 } = true := by
      rw [isFavorite_eq_containsFav _ e rest hdata1]
      simp [containsFav, addFavorite]
    rw [toggleFavorite_remove _ e rest t2 hdata1 hfav1]
    have hrm : removeFromFavorites (addFavorite s.favorites e.word d t1)
        e.word = s.favorites := by
      rw [addFavorite, removeFromFavorites, List.filter_cons]
      rw [if_neg (by simp)]
      rw [List.filter_eq_self.mpr]
      intro f hf
      simpa using hfa f hf
    rw [hrm]
  · intro s e rest d restF t0 t1 t2 hdata hfavs hrest hd
    have hfav : isFavorite s = true := by
      rw [isFavorite_eq_containsFav s e rest hdata, hfavs]
      simp [containsFav]
    rw [toggleFavorite_remove s e rest t1 hdata hfav, Option.some_bind]
    have hrm : removeFromFavorites s.favorites e.word = restF := by
      rw [hfavs, removeFromFavorites, List.filter_cons]
      rw [if_neg (by simp)]
      rw [List.filter_eq_self.mpr]
      intro f hf
      simpa using hrest f hf
    have hdata1 :
        ({ s with favorites := removeFromFavorites s.favorites e.word }
          : AppState).data = some (e :: rest) := hdata
    have hfav1 : isFavorite
        { s with favorites := removeFromFavorites s.favorites e.word }
          = false := by
      rw [isFavorite_eq_containsFav _ e rest hdata1]
      show containsFav (removeFromFavorites s.favorites e.word) e.word = false
      rw [hrm, containsFav, List.any_eq_false]
      intro f hf
      simpa using hrest f hf
    rw [toggleFavorite_add _ e rest d t2 hdata1 hfav1 hd]
    show some _ = some _
    congr 1
    show ({ s with favorites := _ } : AppState) = _
    rw [hrm]
    rfl

/-- **C5** witness: the contract applied at concrete collections and a
concrete loaded state. -/
theorem favorites_contract_witness :
    containsFav (addFavorite [] "run" "to move swiftly" 4) "run" = true ∧
    containsFav (removeFromFavorites
      (addFavorite [] "run" "to move swiftly" 4) "run") "run" = false ∧
    (toggleFavorite { data := some [sampleEntry] } 1).bind
        (fun s1 => toggleFavorite s1 2) =
      some { data := some [sampleEntry] } :=
  ⟨favorites_contract.1 [] "run" "to move swiftly" 4,
   favorites_contract.2.1 (addFavorite [] "run" "to move swiftly" 4) "run",
   favorites_contract.2.2.1 { data := some [sampleEntry] } sampleEntry []
     1 2 rfl (by decide) (by decide)⟩

/-- **C5** counterexample to the claim as stated: with favorites `[a, b]`
and the entry for `b` loaded, double `toggleFavorite` yields favorites
whose word order is `[b, a]` — not the pre-toggle collection with only a
timestamp refreshed (the record moved to the front and its snapshot
definition was rebuilt from the current entry). -/
theorem toggleFavorite_twice_not_restore :
    (toggleFavorite cexStateFav 2).bind (fun s1 => toggleFavorite s1 3) =
      some { cexStateFav with
        favorites := [{ word := "b", definition := "bdef", timestamp := 3 },
                      { word := "a", definition := "da", timestamp := 0 }] } ∧
    cexStateFav.favorites.map (fun f => f.word) = ["a", "b"] ∧
    ((toggleFavorite cexStateFav 2).bind (fun s1 => toggleFavorite s1 3)).map
        (fun s => s.favorites.map (fun f => f.word)) = some ["b", "a"] := by
  decide

theorem toggleFavorite_not_fav (s : AppState) (e : DictionaryEntry)
    (rest : List DictionaryEntry) (t : Nat)
    (hdata : s.data = some (e :: rest)) (hfav : isFavorite s = false) :
    toggleFavorite s t =
      match firstDefinition e with
      | none => none
      | some d =>
          some { s with favorites := addFavorite s.favorites e.word d t } := by
  obtain ⟨v, dt, er, ld, hi, fa, si⟩ := s
  change dt = _ at hdata
  subst hdata
  change (if isFavorite _ then _ else _) = _
  rw [hfav]
  simp only [Bool.false_eq_true, if_false]
  cases firstDefinition e <;> rfl

/-- **C10**: when `toggleFavorite` takes its adding branch, the unguarded
`data[0].meanings[0].definitions[0]` access is well-defined only if the
first loaded entry has a meaning with a non-empty definitions list; on a
loaded entry violating that precondition (every meaning's definitions
list empty, or no meanings at all) the access fails. -/
theorem toggleFavorite_unguarded_indexing (s : AppState)
    (e : DictionaryEntry) (rest : List DictionaryEntry) (now : Nat)
    (hdata : s.data = some (e :: rest)) (hfav : isFavorite s = false) :
    ((toggleFavorite s now).isSome →
      ∃ m ∈ e.meanings, m.definitions ≠ []) ∧
    ((∀ m ∈ e.meanings, m.definitions = []) →
      toggleFavorite s now = none) := by
  cases hd : firstDefinition e with
  | none =>
      refine ⟨?_, ?_⟩
      · intro h
        rw [toggleFavorite_not_fav s e rest now hdata hfav, hd] at h
        simp at h
      · intro _
        rw [toggleFavorite_not_fav s e rest now hdata hfav, hd]
  | some d =>
      refine ⟨?_, ?_⟩
      · intro _
        rw [firstDefinition] at hd
        cases hm : e.meanings with
        | nil =>
            rw [hm] at hd
            simp at hd
        | cons m ms =>
            rw [hm] at hd
            refine ⟨m, by simp [hm], ?_⟩
            cases hdefs : m.definitions with
            | nil =>
                rw [List.head?_cons, Option.some_bind, hdefs] at hd
                simp at hd
            | cons d0 ds => simp [hdefs]
      · intro hall
        exfalso
        rw [firstDefinition] at hd
        cases hm : e.meanings with
        | nil =>
            rw [hm] at hd
            simp at hd
        | cons m ms =>
            rw [hm] at hd
            have hm0 := hall m (by simp [hm])
            rw [List.head?_cons, Option.some_bind, hm0] at hd
            simp at hd

/-- **C10** witness: a loaded entry with no meanings makes the adding
branch of `toggleFavorite` fail. -/
theorem toggleFavorite_unguarded_indexing_witness :
    toggleFavorite cexStateNoMeanings 0 = none :=
  (toggleFavorite_unguarded_indexing cexStateNoMeanings
      { word := "void", meanings := [] } [] 0 rfl rfl).2 (by simp)

theorem foldl_addToSet_eq (l : List String) :
    ∀ acc, l.foldl addToSet acc = acc ++ firstSeenAux acc l := by
  induction l with
  | nil =>
      intro acc
      simp [firstSeenAux]
  | cons s rest ih =>
      intro acc
      rw [List.foldl_cons, firstSeenAux]
      by_cases h : s ∈ acc
      · rw [if_pos h, show addToSet acc s = acc from by simp [addToSet, h]]
        exact ih acc
      · rw [if_neg h,
          show addToSet acc s = acc ++ [s] from by simp [addToSet, h],
          ih (acc ++ [s])]
        simp

theorem mem_firstSeenAux (x : String) :
    ∀ (l seen : List String),
      x ∈ firstSeenAux seen l ↔ x ∈ l ∧ x ∉ seen := by
  intro l
  induction l with
  | nil =>
      intro seen
      simp [firstSeenAux]
  | cons s rest ih =>
      intro seen
      rw [firstSeenAux]
      by_cases h : s ∈ seen
      · rw [if_pos h, ih]
        constructor
        · rintro ⟨hx, hns⟩
          exact ⟨List.mem_cons_of_mem _ hx, hns⟩
        · rintro ⟨hx, hns⟩
          rcases List.mem_cons.mp hx with rfl | hx2
          · exact absurd h hns
          · exact ⟨hx2, hns⟩
      · rw [if_neg h, List.mem_cons, ih]
        simp only [List.mem_append, List.mem_singleton, List.mem_cons]
        by_cases hxs : x = s
        · subst hxs
          tauto
        · tauto

theorem nodup_firstSeenAux :
    ∀ (l seen : List String), (firstSeenAux seen l).Nodup := by
  intro l
  induction l with
  | nil =>
      intro seen
      simp [firstSeenAux]
  | cons s rest ih =>
      intro seen
      rw [firstSeenAux]
      by_cases h : s ∈ seen
      · rw [if_pos h]
        exact ih seen
      · rw [if_neg h]
        refine List.nodup_cons.mpr ⟨?_, ih _⟩
        intro hmem
        exact ((mem_firstSeenAux s rest (seen ++ [s])).mp hmem).2 (by simp)

theorem pairwise_indexOf_firstSeenAux :
    ∀ (l seen : List String), (firstSeenAux seen l).Pairwise
      (fun a b => l.indexOf a < l.indexOf b) := by
  intro l
  induction l with
  | nil =>
      intro seen
      simp [firstSeenAux]
  | cons s rest ih =>
      intro seen
      rw [firstSeenAux]
      by_cases h : s ∈ seen
      · rw [if_pos h]
        refine (ih seen).imp_of_mem ?_
        intro a b ha hb hab
        have hane : a ≠ s := by
          intro heq
          exact ((mem_firstSeenAux a rest seen).mp ha).2 (heq ▸ h)
        have hbne : b ≠ s := by
          intro heq
          exact ((mem_firstSeenAux b rest seen).mp hb).2 (heq ▸ h)
        rw [List.indexOf_cons_ne rest (Ne.symm hane),
          List.indexOf_cons_ne rest (Ne.symm hbne)]
        exact Nat.succ_lt_succ hab
      · rw [if_neg h]
        refine List.pairwise_cons.mpr ⟨?_, ?_⟩
        · intro b hb
          have hbne : b ≠ s := by
            intro heq
            refine ((mem_firstSeenAux b rest (seen ++ [s])).mp hb).2 ?_
            simp [heq]
          rw [List.indexOf_cons_self, List.indexOf_cons_ne rest (Ne.symm hbne)]
          exact Nat.succ_pos _
        · refine (ih (seen ++ [s])).imp_of_mem ?_
          intro a b ha hb hab
          have hane : a ≠ s := by
            intro heq
            refine ((mem_firstSeenAux a rest (seen ++ [s])).mp ha).2 ?_
            simp [heq]
          have hbne : b ≠ s := by
            intro heq
            refine ((mem_firstSeenAux b rest (seen ++ [s])).mp hb).2 ?_
            simp [heq]
          rw [List.indexOf_cons_ne rest (Ne.symm hane),
            List.indexOf_cons_ne rest (Ne.symm hbne)]
          exact Nat.succ_lt_succ hab

theorem getAllSynonyms_cons (s : AppState) (e : DictionaryEntry)
    (rest : List DictionaryEntry) (hdata : s.data = some (e :: rest)) :
    getAllSynonyms s = firstSeenAux [] (synTraversal e) := by
  obtain ⟨v, dt, er, ld, hi, fa, si⟩ := s
  change dt = _ at hdata
  subst hdata
  change (synTraversal e).foldl addToSet [] = _
  rw [foldl_addToSet_eq]
  simp

/-- **C7**: `getAllSynonyms` returns the empty list when no entry is
loaded; otherwise it returns exactly the strings occurring in the
meanings-then-definitions synonym traversal of the first entry, without
duplicates (case-sensitive identity), ordered by first occurrence in
that traversal. -/
theorem getAllSynonyms_spec :
    (∀ s : AppState, s.data = none → getAllSynonyms s = []) ∧
    (∀ s : AppState, s.data = some [] → getAllSynonyms s = []) ∧
    (∀ (s : AppState) (e : DictionaryEntry) (rest : List DictionaryEntry),
      s.data = some (e :: rest) →
      (getAllSynonyms s).Nodup ∧
      (∀ x, x ∈ getAllSynonyms s ↔ x ∈ synTraversal e) ∧
      (getAllSynonyms s).Pairwise
        (fun a b => (synTraversal e).indexOf a < (synTraversal e).indexOf b))
    := by
  refine ⟨?_, ?_, ?_⟩
  · intro s hdata
    obtain ⟨v, dt, er, ld, hi, fa, si⟩ := s
    change dt = _ at hdata
    subst hdata
    rfl
  · intro s hdata
    obtain ⟨v, dt, er, ld, hi, fa, si⟩ := s
    change dt = _ at hdata
    subst hdata
    rfl
  · intro s e rest hdata
    rw [getAllSynonyms_cons s e rest hdata]
    refine ⟨nodup_firstSeenAux _ _, ?_, pairwise_indexOf_firstSeenAux _ _⟩
    intro x
    rw [mem_firstSeenAux]
    simp

/-- **C7** witness: the characterisation applied at a concrete loaded
entry with overlapping synonym lists. -/
theorem getAllSynonyms_spec_witness :
    (getAllSynonyms cexSynState).Nodup ∧
    ("grand" ∈ getAllSynonyms cexSynState ↔
      "grand" ∈ synTraversal cexSynEntry) :=
  ⟨(getAllSynonyms_spec.2.2 cexSynState cexSynEntry [] rfl).1,
   (getAllSynonyms_spec.2.2 cexSynState cexSynEntry [] rfl).2.1 "grand"⟩

theorem mem_recordHistory (i : HistoryItem) (h : List HistoryItem)
    (w : String) (t : Nat) (hmem : i ∈ recordHistory h w t) :
    i = { word := jsToLower w, timestamp := t } ∨ i ∈ h := by
  rw [recordHistory_eq, List.mem_cons] at hmem
  rcases hmem with rfl | hmem2
  · exact Or.inl rfl
  · exact Or.inr
      ((List.mem_filter.mp ((List.take_sublist _ _).subset hmem2)).1)

theorem recordHistory_inv (h : List HistoryItem) (w : String) (t : Nat)
    (hinv : historyInv h) : historyInv (recordHistory h w t) := by
  obtain ⟨hlen, hnodup, hlow⟩ := hinv
  refine ⟨?_, ?_, ?_⟩
  · rw [recordHistory]
    exact List.length_take_le 50 _
  · rw [recordHistory_eq, List.map_cons]
    refine List.nodup_cons.mpr ⟨?_, ?_⟩
    · intro hmem
      rw [List.mem_map] at hmem
      obtain ⟨a, ha, haw⟩ := hmem
      have hf := List.mem_filter.mp ((List.take_sublist _ _).subset ha)
      have : a.word ≠ jsToLower w := by simpa using hf.2
      exact this haw
    · exact List.Nodup.sublist
        (((List.take_sublist _ _).trans (List.filter_sublist _)).map _) hnodup
  · intro i hi
    rcases mem_recordHistory i h w t hi with rfl | hmem
    · exact jsToLower_idem w
    · exact hlow i hmem

theorem recordHistory_pairwise (h : List HistoryItem) (w : String) (t : Nat)
    (hpw : h.Pairwise (fun a b => b.timestamp ≤ a.timestamp))
    (hbound : ∀ i ∈ h, i.timestamp ≤ t) :
    (recordHistory h w t).Pairwise (fun a b => b.timestamp ≤ a.timestamp) := by
  rw [recordHistory_eq]
  refine List.pairwise_cons.mpr ⟨?_, ?_⟩
  · intro b hb
    have hbh : b ∈ h :=
      (List.mem_filter.mp ((List.take_sublist _ _).subset hb)).1
    exact hbound b hbh
  · exact List.Pairwise.sublist
      ((List.take_sublist _ _).trans (List.filter_sublist _)) hpw

theorem runHistory_aux (ops : List (String × Nat)) :
    ∀ h : List HistoryItem, historyInv h →
      h.Pairwise (fun a b => b.timestamp ≤ a.timestamp) →
      (∀ i ∈ h, ∀ op ∈ ops, i.timestamp ≤ op.2) →
      ops.Pairwise (fun a b => a.2 ≤ b.2) →
      historyInv (ops.foldl (fun h op => recordHistory h op.1 op.2) h) ∧
      (ops.foldl (fun h op => recordHistory h op.1 op.2) h).Pairwise
        (fun a b => b.timestamp ≤ a.timestamp) := by
  induction ops with
  | nil =>
      intro h hinv hpw _ _
      exact ⟨hinv, hpw⟩
  | cons op rest ih =>
      intro h hinv hpw hbound hops
      rw [List.foldl_cons]
      have hbound0 : ∀ i ∈ h, i.timestamp ≤ op.2 := fun i hi =>
        hbound i hi op (List.mem_cons_self _ _)
      refine ih (recordHistory h op.1 op.2)
        (recordHistory_inv h op.1 op.2 hinv)
        (recordHistory_pairwise h op.1 op.2 hpw hbound0) ?_
        (List.Pairwise.of_cons hops)
      intro i hi op2 hop2
      rcases mem_recordHistory i h op.1 op.2 hi with rfl | hmem
      · exact (List.pairwise_cons.mp hops).1 op2 hop2
      · exact hbound i hmem op2 (List.mem_cons_of_mem _ hop2)

/-- **C3**: starting from the empty collection, after any sequence of
history insertions performed at non-decreasing clock values, the History
collection holds at most 50 records, has at most one record per word
under case-insensitive identity, is ordered most-recent-first by
timestamp; a single insertion always removes all prior records of the
(lower-cased) word and prepends the fresh record at index 0; and the
concrete `run` / `Run` scenario leaves exactly one record for `run` at
the front. -/
theorem history_invariant (ops : List (String × Nat))
    (hops : ops.Pairwise (fun a b => a.2 ≤ b.2)) :
    (runHistory ops).length ≤ 50 ∧
    ((runHistory ops).map (fun i => jsToLower i.word)).Nodup ∧
    (runHistory ops).Pairwise (fun a b => b.timestamp ≤ a.timestamp) ∧
    (∀ (h : List HistoryItem) (w : String) (t : Nat),
      recordHistory h w t =
        ({ word := jsToLower w, timestamp := t } : HistoryItem) ::
          (h.filter (fun i => i.word ≠ jsToLower w)).take 49) ∧
    runHistory [("run", 1), ("Run", 2)] =
      [{ word := "run", timestamp := 2 }] := by
  have hmain := runHistory_aux ops []
    ⟨by simp, by simp, by simp⟩ (by simp) (by simp) hops
  obtain ⟨⟨hlen, hnodup, hlow⟩, hpw⟩ := hmain
  refine ⟨hlen, ?_, hpw, recordHistory_eq, by decide⟩
  have hmap : (runHistory ops).map (fun i => jsToLower i.word) =
      (runHistory ops).map (fun i => i.word) :=
    List.map_congr_left (fun i hi => hlow i hi)
  rw [hmap]
  exact hnodup

/-- **C3** witness: the invariant at a concrete insertion sequence with
case-variant duplicate words. -/
theorem history_invariant_witness :
    (runHistory [("run", 1), ("Run", 2), ("walk", 3)]).length ≤ 50 ∧
    ((runHistory [("run", 1), ("Run", 2), ("walk", 3)]).map
      (fun i => jsToLower i.word)).Nodup ∧
    (runHistory [("run", 1), ("Run", 2), ("walk", 3)]).Pairwise
      (fun a b => b.timestamp ≤ a.timestamp) ∧
    (∀ (h : List HistoryItem) (w : String) (t : Nat),
      recordHistory h w t =
        ({ word := jsToLower w, timestamp := t } : HistoryItem) ::
          (h.filter (fun i => i.word ≠ jsToLower w)).take 49) ∧
    runHistory [("run", 1), ("Run", 2)] =
      [{ word := "run", timestamp := 2 }] :=
  history_invariant [("run", 1), ("Run", 2), ("walk", 3)] (by decide)

theorem flatMap_unreserved (l : List Char)
    (h : ∀ c ∈ l, isUnreservedURIChar c = true) :
    (l.flatMap fun c => if isUnreservedURIChar c then [c]
      else (utf8Bytes c).flatMap percentByte) = l := by
  induction l with
  | nil => rfl
  | cons c rest ih =>
      rw [List.flatMap_cons, if_pos (h c (List.mem_cons_self _ _)),
        ih (fun c2 hc2 => h c2 (List.mem_cons_of_mem _ hc2))]
      rfl

theorem encodeURIComponent_unreserved (s : String)
    (h : ∀ c ∈ s.data, isUnreservedURIChar c = true) :
    encodeURIComponent s = s := by
  rw [encodeURIComponent, flatMap_unreserved s.data h]

/-- **C8** (amended): for every search on a non-empty trimmed term, the
first variant's single outbound request path parameter is the
lower-cased, percent-encoded term, while the second variant's is the
lower-cased term with no percent-encoding; the two coincide exactly on
terms whose lower-cased form consists of characters `encodeURIComponent`
leaves unescaped. -/
theorem searchRequest_paths (word : String) (h : jsTrim word ≠ "") :
    searchRequest1 word =
      some (apiBase ++ encodeURIComponent (jsToLower word)) ∧
    searchRequest2 word = some (apiBase ++ jsToLower word) ∧
    ((∀ c ∈ (jsToLower word).data, isUnreservedURIChar c = true) →
      searchRequest2 word = searchRequest1 word) := by
  refine ⟨?_, ?_, ?_⟩
  · simp [searchRequest1, fetchUrl1, h]
  · simp [searchRequest2, fetchUrl2, h]
  · intro hc
    simp [searchRequest1, searchRequest2, fetchUrl1, fetchUrl2, h,
      encodeURIComponent_unreserved _ hc]

/-- **C8** witness at the concrete term `Run`, on which the two variants
coincide. -/
theorem searchRequest_paths_witness :
    searchRequest1 "Run" =
      some (apiBase ++ encodeURIComponent (jsToLower "Run")) ∧
    searchRequest2 "Run" = some (apiBase ++ jsToLower "Run") ∧
    searchRequest2 "Run" = searchRequest1 "Run" :=
  ⟨(searchRequest_paths "Run" (by decide)).1,
   (searchRequest_paths "Run" (by decide)).2.1,
   (searchRequest_paths "Run" (by decide)).2.2 (by decide)⟩

/-- **C8** counterexample to the claim as stated: searching `a b` in the
second variant issues a request whose path parameter is the raw string
`a b`, not its percent-encoded form `a%20b`. -/
theorem fetchUrl2_not_percent_encoded :
    jsTrim "a b" ≠ "" ∧
    encodeURIComponent (jsToLower "a b") = "a%20b" ∧
    fetchUrl2 "a b" = apiBase ++ "a b" ∧
    fetchUrl2 "a b" ≠ apiBase ++ encodeURIComponent (jsToLower "a b") := by
  decide

/-- **C2** (amended): at startup each collection is read from its fixed
key; an absent (or falsy empty) stored value leaves the collection empty
with no error, but a stored value on which `JSON.parse` throws makes the
bootstrap propagate that error — the startup read does crash on
malformed persisted data instead of substituting the empty collection. -/
theorem bootstrap_behaviour {α : Type}
    (parse : String → Except String (List α)) (s msg : String)
    (hs : s ≠ "") (hfail : parse s = Except.error msg) :
    bootstrapCollection none parse = Except.ok [] ∧
    bootstrapCollection (some "") parse = Except.ok [] ∧
    bootstrapCollection (some s) parse = Except.error msg := by
  refine ⟨rfl, ?_, ?_⟩
  · simp [bootstrapCollection]
  · simp [bootstrapCollection, hs, hfail]

/-- **C2** witness: the bootstrap behaviour at the `JSON.parse` model and
the concrete malformed input. -/
theorem bootstrap_behaviour_witness :
    bootstrapCollection none jsonParseHistory = Except.ok [] ∧
    bootstrapCollection (some "") jsonParseHistory = Except.ok [] ∧
    bootstrapCollection (some "not json") jsonParseHistory =
      Except.error "SyntaxError: Unexpected token" :=
  bootstrap_behaviour jsonParseHistory "not json"
    "SyntaxError: Unexpected token" (by decide) (by rfl)

/-- **C2** counterexample to the claim as stated: with a malformed
persisted history value, the bootstrap does not fall back to the empty
collection — the `JSON.parse` failure propagates as an error. -/
theorem bootstrap_malformed_propagates :
    bootstrapCollection (some "not json") jsonParseHistory ≠
      Except.ok ([] : List HistoryItem) ∧
    bootstrapCollection (some "not json") jsonParseHistory =
      Except.error "SyntaxError: Unexpected token" := by
  refine ⟨?_, rfl⟩
  intro hcontra
  exact absurd hcontra (by simp [bootstrapCollection, jsonParseHistory])

end DictApp
